import Mathlib

/-!
# wdym: a verification development of the mode dispatcher and its helpers

A shallow embedding of `main.go`, `handlers.go`, `utils.go` and `gemini.go`.

Conventions of the embedding.

* A Go `string` is a `Str`, the list of its Unicode code points (the embedding
  takes texts to be valid UTF-8; byte lengths are computed with
  `Char.utf8Size`).
* A Go `error` is an `Option Str` (`none` is `nil`), the text being the
  message; a `(T, error)` result is an `Except Str T`.
* Everything outside the process is explicit: the file system, the shell,
  the remote model, standard input and the Unicode case table are fields of
  `Env`, the file-system state is threaded through the handlers, and what a
  handler prints, asks and sends is collected in a trace of `Event`s.
-/

namespace Wdym

/-- Go strings, as lists of code points. -/
abbrev Str := List Char

deriving instance DecidableEq for Except

/-- Length of a Go string in bytes, the value of `len(s)`. -/
def byteLen (s : Str) : Nat := (s.map Char.utf8Size).sum

/-! ## Library functions of `strings` and `unicode` -/

/-- Code points of `unicode.IsSpace`: the Latin-1 spaces and the code points
with the Unicode White_Space property. -/
def isSpace (c : Char) : Bool :=
  let n := c.toNat
  n == 0x09 || n == 0x0A || n == 0x0B || n == 0x0C || n == 0x0D || n == 0x20 ||
  n == 0x85 || n == 0xA0 || n == 0x1680 || (0x2000 ≤ n && n ≤ 0x200A) ||
  n == 0x2028 || n == 0x2029 || n == 0x202F || n == 0x205F || n == 0x3000

/-- Removes trailing white space, as `strings.TrimRightFunc(s, unicode.IsSpace)`. -/
def trimRight : Str → Str
  | [] => []
  | c :: cs =>
    match trimRight cs with
    | [] => if isSpace c then [] else [c]
    | r => c :: r

/-- Spec of `strings.TrimSpace`: leading and trailing white space removed. -/
def TrimSpace (s : Str) : Str := trimRight (s.dropWhile isSpace)

/-- Spec of `strings.HasPrefix`. -/
def HasPrefix (s pre : Str) : Bool := pre.isPrefixOf s

/-- Spec of `strings.Contains` for a one-character substring. -/
def ContainsChar (s : Str) (c : Char) : Bool := s.contains c

/-- Text after the first occurrence of `c`, when there is one: the second
element of `strings.SplitN(s, c, 2)` when that has two elements. -/
def afterFirst (c : Char) : Str → Option Str
  | [] => none
  | d :: ds => if d = c then some ds else afterFirst c ds

/-- Spec of `strings.Split(s, "\n")`: the segments between the newlines; the
result is never empty, and a text ending in a newline has a last empty segment. -/
def SplitLines : Str → List Str
  | [] => [[]]
  | c :: cs =>
    if c = '\n' then [] :: SplitLines cs
    else
      match SplitLines cs with
      | [] => [[c]]
      | l :: ls => (c :: l) :: ls

/-- Lower-casing of `unicode.ToLower` on the ASCII range; the rest of the
Unicode case table is the parameter `table`. -/
def lowerRune (table : Char → Char) (c : Char) : Char :=
  if c.toNat < 128 then (if 'A'.toNat ≤ c.toNat ∧ c.toNat ≤ 'Z'.toNat then Char.ofNat (c.toNat + 32) else c)
  else table c

/-- Spec of `strings.ToLower`, over the case table `table`. -/
def ToLower (table : Char → Char) (s : Str) : Str := s.map (lowerRune table)

/-- Decimal rendering of `%d` for a non-negative integer. -/
def fmtNat (n : Nat) : Str := (Nat.repr n).toList

/-! ## utils.go: colorize, truncateString -/

/-- The map literal `colors` of `colorize`. -/
def colors : List (Str × Str) :=
  [ ("red".toList,     "\x1b[31m".toList),
    ("green".toList,   "\x1b[32m".toList),
    ("yellow".toList,  "\x1b[33m".toList),
    ("blue".toList,    "\x1b[34m".toList),
    ("magenta".toList, "\x1b[35m".toList),
    ("cyan".toList,    "\x1b[36m".toList),
    ("white".toList,   "\x1b[37m".toList),
    ("reset".toList,   "\x1b[0m".toList) ]

/-- Map lookup `colors[key]`, with the `exists` flag as the option. -/
def mapLookup (m : List (Str × Str)) (key : Str) : Option Str :=
  (m.find? (fun kv => kv.1 == key)).map Prod.snd

/-- Go map index `m[key]`: the zero value (the empty string) for an absent key. -/
def mapIndex (m : List (Str × Str)) (key : Str) : Str := (mapLookup m key).getD []

/-- Embedding of `colorize`: adds ANSI color codes to text. -/
def colorize (text color : Str) : Str :=
  match mapLookup colors color with
  | some colorCode => colorCode ++ text ++ mapIndex colors "reset".toList
  | none => text

/-- UTF-8 bytes of a Go string, as numbers below 256. -/
def utf8Bytes (s : Str) : List Nat := s.flatMap (fun c => (String.utf8EncodeChar c).map UInt8.toNat)

/-- Embedding of `truncateString`; the cut is by bytes, so the result is a byte
string (it may end inside a code point). The slice `s[:maxLen-3]` needs
`maxLen` to be at least 3 (the source panics on a longer string otherwise),
which the argument `hmax` records. -/
def truncateString (s : Str) (maxLen : Nat) (_hmax : 3 ≤ maxLen) : List Nat :=
  if byteLen s ≤ maxLen then utf8Bytes s
  else (utf8Bytes s).take (maxLen - 3) ++ utf8Bytes "...".toList

/-! ## gemini.go: the AI client -/

/-- A `genai.Part`: a `genai.Text`, or a part of another kind (blob, file
data, function call, ...), kept only by a tag. -/
inductive Part where
  | text (s : Str)
  | nonText (kind : Nat)
  deriving DecidableEq, Repr

/-- A `genai.Content`: its list of parts. -/
structure Content where
  Parts : List Part
  deriving DecidableEq, Repr

/-- A `genai.Candidate`; `Content` is a pointer and may be nil. -/
structure Candidate where
  Content : Option Content
  deriving DecidableEq, Repr

/-- A `genai.GenerateContentResponse`: the candidates. -/
structure Response where
  Candidates : List Candidate
  deriving DecidableEq, Repr

/-- The loop of `GenerateResponse` over the parts: `result += string(textPart)`
for each part that is a `genai.Text`. -/
def collectText : List Part → Str
  | [] => []
  | Part.text t :: ps => t ++ collectText ps
  | Part.nonText _ :: ps => collectText ps

/-- The body of `GenerateResponse` after the request: `remote` is what
`g.model.GenerateContent` returned. -/
def extractText (remote : Except Str Response) : Except Str Str :=
  match remote with
  | .error err => .error ("failed to generate content: ".toList ++ err)
  | .ok response =>
    match response.Candidates with
    | [] => .error "no response candidates generated".toList
    | candidate :: _ =>
      match candidate.Content with
      | none => .error "empty response from AI".toList
      | some content =>
        if content.Parts.length = 0 then .error "empty response from AI".toList
        else .ok (collectText content.Parts)

/-- Embedding of `GeminiClient.GenerateResponse`; `model` is the remote
service, from prompt to error or response. -/
def GenerateResponse (model : Str → Except Str Response) (prompt : Str) : Except Str Str :=
  extractText (model prompt)

/-- Prompt of `GenerateShellCommand`. -/
def shellPrompt (query : Str) : Str :=
  "You are a command-line expert. Generate a shell command for the following request.\n\nOperating System: macOS (Darwin)\nShell: zsh\n\nRequest: ".toList
    ++ query ++
  "\n\nProvide ONLY the shell command, no explanation or markdown formatting. The command should be safe to execute.".toList

/-- Prompt of `GenerateCode`. -/
def codePrompt (query : Str) : Str :=
  "You are a coding expert. Generate code for the following request.\n\nRequest: ".toList
    ++ query ++
  "\n\nProvide ONLY the code, no explanation or markdown formatting unless specifically requested.".toList

/-- Prompt of `AnalyzeFile`. -/
def analyzeFilePrompt (content query : Str) : Str :=
  "You are a code and file analysis expert. Analyze the following file content and answer the question.\n\nFile Content:\n".toList
    ++ content ++ "\n\nQuestion: ".toList ++ query ++
  "\n\nProvide a clear and concise answer.".toList

/-- Prompt of `AnalyzeCommand`. -/
def analyzeCommandPrompt (command output : Str) : Str :=
  "You are a command-line expert. Analyze the following command and its output, then provide helpful insights, explanations, or suggestions.\n\nCommand: ".toList
    ++ command ++ "\nOutput: ".toList ++ output ++
  "\n\nProvide helpful insights about what this command does, any potential issues, or suggestions for next steps.".toList

/-- Prompt of `EditFile`. -/
def editFilePrompt (filePath content instruction : Str) : Str :=
  "You are a file editing expert. You need to modify the following file according to the given instruction.\n\nFile Path: ".toList
    ++ filePath ++ "\nCurrent Content:\n".toList ++ content ++ "\n\nInstruction: ".toList ++ instruction ++
  "\n\nProvide the complete modified file content. If creating a new file, provide the full file content.".toList

/-- Embedding of `GeminiClient.GenerateShellCommand`. -/
def GenerateShellCommand (model : Str → Except Str Response) (query : Str) : Except Str Str :=
  GenerateResponse model (shellPrompt query)

/-- Embedding of `GeminiClient.GenerateCode`. -/
def GenerateCode (model : Str → Except Str Response) (query : Str) : Except Str Str :=
  GenerateResponse model (codePrompt query)

/-- Embedding of `GeminiClient.AnalyzeFile`. -/
def AnalyzeFile (model : Str → Except Str Response) (content query : Str) : Except Str Str :=
  GenerateResponse model (analyzeFilePrompt content query)

/-- Embedding of `GeminiClient.AnalyzeCommand`. -/
def AnalyzeCommand (model : Str → Except Str Response) (command output : Str) : Except Str Str :=
  GenerateResponse model (analyzeCommandPrompt command output)

/-- Embedding of `GeminiClient.EditFile`. -/
def EditFile (model : Str → Except Str Response) (filePath content instruction : Str) : Except Str Str :=
  GenerateResponse model (editFilePrompt filePath content instruction)

/-! ## The outside world and the trace of a run -/

/-- A call on the AI client, with its arguments. -/
inductive AICall where
  | GenerateResponse (prompt : Str)
  | GenerateShellCommand (query : Str)
  | GenerateCode (query : Str)
  | AnalyzeFile (content query : Str)
  | AnalyzeCommand (command output : Str)
  | EditFile (filePath content instruction : Str)
  deriving DecidableEq, Repr

/-- What a run does that can be observed from outside, in order. -/
inductive Event where
  /-- One `fmt.Print`, `fmt.Printf` or `fmt.Println` call on standard output. -/
  | out (text : Str)
  /-- A print of a byte string (the truncated preview). -/
  | outBytes (bytes : List Nat)
  /-- A call on the AI client. -/
  | ai (call : AICall)
  /-- A line is read from standard input. -/
  | read
  /-- A command is handed to `sh -c`. -/
  | exec (command : Str)
  deriving DecidableEq, Repr

/-- The collaborators of the process, over a file-system state `σ`. An
operation that can change the file system returns the state after it, also
when it fails. -/
structure Env (σ : Type) where
  /-- Whether `os.Stat(path)` returns a nil error. -/
  Stat : σ → Str → Bool
  /-- The function `os.ReadFile` (also used for `os.Open` followed by reading). -/
  ReadFile : σ → Str → Except Str Str
  /-- The function `os.MkdirAll(dir, 0755)`. -/
  MkdirAll : σ → Str → σ × Option Str
  /-- The function `os.WriteFile(path, content, 0644)`. -/
  WriteFile : σ → Str → Str → σ × Option Str
  /-- The function `filepath.Dir`. -/
  Dir : Str → Str
  /-- The function `filepath.Join` of two elements. -/
  Join : Str → Str → Str
  /-- The function `os.UserHomeDir`. -/
  UserHomeDir : Except Str Str
  /-- Running `sh -c command`: state after, combined output, error. -/
  Sh : σ → Str → σ × Str × Option Str
  /-- The remote model behind `g.model.GenerateContent`. -/
  Model : Str → Except Str Response
  /-- What standard input holds, up to its end. -/
  Stdin : Str
  /-- The non-ASCII part of the Unicode lower-case table. -/
  LowerTable : Char → Char
  /-- The function `os.Getenv`. -/
  Getenv : Str → Str
  /-- The error of `genai.NewClient` for an API key, if any. -/
  NewClient : Str → Option Str
  /-- The date and time, with the space after them, that the standard logger
  of `log` writes before a message. -/
  LogStamp : Str

/-- Result of a handler: its error, the file system after it, its trace. -/
structure Run (σ : Type) where
  err : Option Str
  fs : σ
  trace : List Event

/-- The calls made on the AI client in a trace, in order. -/
def aiCallList : List Event → List AICall
  | [] => []
  | Event.ai call :: es => call :: aiCallList es
  | _ :: es => aiCallList es

/-- Number of calls made on the AI client in a trace. -/
def aiCalls (trace : List Event) : Nat := (aiCallList trace).length

instance : Coe String Str := ⟨String.toList⟩

/-! ## utils.go: files, history, prompts -/

variable {σ : Type}

/-- Embedding of `readFile`. -/
def readFile (env : Env σ) (s : σ) (filePath : Str) : Except Str Str :=
  match env.ReadFile s filePath with
  | .error err => .error ("failed to read file " ++ filePath ++ ": " ++ err)
  | .ok content => .ok content

/-- Embedding of `writeFile`: parent directory first, then the file. -/
def writeFile (env : Env σ) (s : σ) (filePath content : Str) : σ × Option Str :=
  let dir := env.Dir filePath
  match env.MkdirAll s dir with
  | (s1, some err) => (s1, some ("failed to create directory " ++ dir ++ ": " ++ err))
  | (s1, none) =>
    match env.WriteFile s1 filePath content with
    | (s2, some err) => (s2, some ("failed to write file " ++ filePath ++ ": " ++ err))
    | (s2, none) => (s2, none)

/-- Embedding of `fileExists`. -/
def fileExists (env : Env σ) (s : σ) (filePath : Str) : Bool := env.Stat s filePath

/-- What a `bufio.Scanner` delivers: the texts of the successful `Scan` calls,
then the value of `Err`. -/
structure Scanner where
  tokens : List Str
  err : Option Str
  deriving DecidableEq, Repr

/-- The constant `bufio.MaxScanTokenSize`. -/
def maxScanTokenSize : Nat := 64 * 1024

/-- The function `dropCR` of `bufio.ScanLines`: one trailing carriage return removed. -/
def dropCR (l : Str) : Str := if l.getLast? = some '\r' then l.dropLast else l

/-- Lines of a file for `bufio.ScanLines`: the newline-terminated segments and
a last unterminated one when it is not empty. -/
def rawLines (content : Str) : List Str :=
  let segs := SplitLines content
  if segs.getLast? = some [] then segs.dropLast else segs

/-- Scanning of the lines in order: a line of `maxScanTokenSize` bytes or more
does not fit the buffer and ends the scan with `bufio.ErrTooLong`. -/
def scanTokens : List Str → Scanner
  | [] => ⟨[], none⟩
  | l :: ls =>
    if byteLen l < maxScanTokenSize then
      ⟨dropCR l :: (scanTokens ls).tokens, (scanTokens ls).err⟩
    else ⟨[], some "bufio.Scanner: token too long"⟩

/-- A `bufio.NewScanner` run over a file with the given content. -/
def scanFile (content : Str) : Scanner := scanTokens (rawLines content)

/-- Spec of `strings.SplitN(s, sep, 2)` for a one-character separator. -/
def SplitN2 (s : Str) (sep : Char) : List Str :=
  match afterFirst sep s with
  | some rest => [s.takeWhile (fun d => d != sep), rest]
  | none => [s]

/-- One iteration of the scanning loop of `getLastCommandFromFile`: the value
of `lastLine` after the iteration for the scanned text `text`. -/
def historyStep (lastLine text : Str) : Str :=
  let line := TrimSpace text
  if line ≠ [] then
    let line :=
      if ContainsChar line ';' && HasPrefix line ":" then
        match SplitN2 line ';' with
        | [_, command] => command
        | _ => line
      else line
    if !HasPrefix line "wdym" then line else lastLine
  else lastLine

/-- The loop of `getLastCommandFromFile` and its check of `scanner.Err()`. -/
def scanLastCommand (sc : Scanner) : Except Str Str :=
  let lastLine := sc.tokens.foldl historyStep []
  match sc.err with
  | some err => .error err
  | none => .ok lastLine

/-- Embedding of `getLastCommandFromFile`. -/
def getLastCommandFromFile (env : Env σ) (s : σ) (historyFile : Str) : Except Str Str :=
  match env.ReadFile s historyFile with
  | .error err => .error err
  | .ok content => scanLastCommand (scanFile content)

/-- The loop of `getLastCommand` over the history files. -/
def firstLastCommand (env : Env σ) (s : σ) : List Str → Except Str Str
  | [] => .error "could not find shell history or last command"
  | histFile :: rest =>
    if fileExists env s histFile then
      match getLastCommandFromFile env s histFile with
      | .ok cmd => if cmd ≠ [] then .ok cmd else firstLastCommand env s rest
      | .error _ => firstLastCommand env s rest
    else firstLastCommand env s rest

/-- Embedding of `getLastCommand`. -/
def getLastCommand (env : Env σ) (s : σ) : Except Str Str :=
  match env.UserHomeDir with
  | .error err => .error ("failed to get home directory: " ++ err)
  | .ok homeDir =>
    firstLastCommand env s
      [env.Join homeDir ".zsh_history", env.Join homeDir ".bash_history", env.Join homeDir ".history"]

/-- Embedding of `executeCommand`. -/
def executeCommand (env : Env σ) (s : σ) (command : Str) : σ × Str × Option Str :=
  env.Sh s command

/-- The call `reader.ReadString('\n')`: the text up to and with the first
newline, or `io.EOF` when the input ends before one. -/
def ReadString : Str → Except Str Str
  | [] => .error "EOF"
  | c :: cs =>
    if c = '\n' then .ok [c]
    else
      match ReadString cs with
      | .ok l => .ok (c :: l)
      | .error err => .error err

/-- Embedding of `promptUser`: the events and the trimmed answer. -/
def promptUser (env : Env σ) (prompt : Str) : List Event × Except Str Str :=
  ([Event.out prompt, Event.read],
    match ReadString env.Stdin with
    | .error err => .error err
    | .ok input => .ok (TrimSpace input))

/-- Embedding of `confirmAction`. -/
def confirmAction (env : Env σ) (message : Str) : List Event × Bool :=
  let (events, answer) := promptUser env (message ++ " (y/N): ")
  match answer with
  | .error _ => (events, false)
  | .ok response =>
    let response := ToLower env.LowerTable response
    (events, response == "y".toList || response == "yes".toList)

/-! ## utils.go: printDiff -/

/-- The separator line the handlers print. -/
def ruleLine : Str := "─────────────────────────────────────────────────────────────"

/-- The loop `for i := 0; i < len(newLines) && shown < maxLines; i++` of
`printDiff`, from index `i` with `shown` changes printed; the first argument
bounds the iterations left and `len(newLines)` is enough, since each iteration
advances `i`. -/
def diffLoop (oldLines newLines : List Str) (maxLines : Nat) : Nat → Nat → Nat → List Event
  | 0, _, _ => []
  | fuel + 1, i, shown =>
    if i < newLines.length ∧ shown < maxLines then
      if i ≥ oldLines.length then
        Event.out ("  + " ++ newLines.getD i [] ++ "\n")
          :: diffLoop oldLines newLines maxLines fuel (i + 1) (shown + 1)
      else if oldLines.getD i [] ≠ newLines.getD i [] then
        (if oldLines.getD i [] ≠ [] then [Event.out ("  - " ++ oldLines.getD i [] ++ "\n")] else [])
          ++ Event.out ("  + " ++ newLines.getD i [] ++ "\n")
          :: diffLoop oldLines newLines maxLines fuel (i + 1) (shown + 1)
      else diffLoop oldLines newLines maxLines fuel (i + 1) shown
    else []

/-- The change summary of `printDiff`: what it prints for the line-count
difference `additions`. -/
def changeSummary (additions : Int) : List Event :=
  (if additions > 0 then [Event.out ("  " ++ fmtNat additions.toNat ++ " additions (+)")] else [])
    ++ (if additions < 0 then [Event.out ("  " ++ fmtNat (-additions).toNat ++ " deletions (-)")] else [])
    ++ (if additions = 0 then [Event.out "  Content modified"] else [])

/-- Embedding of `printDiff`: the prints it makes, in order. -/
def printDiff (filePath oldContent newContent : Str) : List Event :=
  let oldLines := SplitLines oldContent
  let newLines := SplitLines newContent
  let additions : Int := (newLines.length : Int) - (oldLines.length : Int)
  let maxLines := 5
  [Event.out ("\n📝 Changes for " ++ filePath ++ ":\n"), Event.out (ruleLine ++ "\n")]
    ++ changeSummary additions
    ++ [Event.out "\n"]
    ++ (if oldContent ≠ newContent then
          [Event.out "\nKey changes:\n"]
            ++ diffLoop oldLines newLines maxLines newLines.length 0 0
            ++ (if newLines.length > maxLines ∨ oldLines.length > maxLines then
                  [Event.out "  ... and more changes\n"] else [])
        else [])
    ++ [Event.out (ruleLine ++ "\n")]

/-! ## handlers.go -/

/-- Embedding of `handleShellMode`. -/
def handleShellMode (env : Env σ) (s : σ) (query : Str) : Run σ :=
  if query = [] then ⟨some "no query provided for shell mode", s, []⟩
  else
    let t1 := [Event.out ("🐚 " ++ colorize "Generating shell command..." "blue" ++ "\n"),
               Event.ai (AICall.GenerateShellCommand query)]
    match GenerateShellCommand env.Model query with
    | .error err => ⟨some ("failed to generate shell command: " ++ err), s, t1⟩
    | .ok command =>
      let command := TrimSpace command
      let t2 := t1 ++ [Event.out ("\n" ++ colorize "$" "green" ++ " " ++ colorize command "white" ++ "\n")]
      let confirm := confirmAction env "Execute this command?"
      if confirm.2 then
        let t3 := t2 ++ confirm.1
          ++ [Event.out ("\n" ++ colorize "Executing..." "yellow" ++ "\n"), Event.exec command]
        match executeCommand env s command with
        | (s1, output, err) =>
          let t4 := t3 ++ (match err with
            | some e => [Event.out (colorize "❌" "red" ++ " Command failed: " ++ e ++ "\n")]
            | none => [])
          let t5 := t4 ++ (if output ≠ [] then [Event.out ("\n" ++ output ++ "\n")] else [])
          ⟨none, s1, t5⟩
      else ⟨none, s, t2 ++ confirm.1⟩

/-- The part of `handleWriteMode` after the content was generated: display,
confirmation, write. -/
def writeAfterGenerate (env : Env σ) (s : σ) (filePath oldContent : Str)
    (isNewFile : Bool) (newContent : Str) (t : List Event) : Run σ :=
  let newContent := TrimSpace newContent
  let shown :=
    if !isNewFile then printDiff filePath oldContent newContent
    else
      [Event.out ("\n📄 " ++ colorize "New file content:" "green" ++ "\n"),
       Event.out (ruleLine ++ "\n"),
       Event.outBytes (truncateString newContent 500 (by decide) ++ utf8Bytes "\n")]
        ++ (if byteLen newContent > 500 then
              [Event.out "... (truncated, full content will be written to file)\n"] else [])
        ++ [Event.out (ruleLine ++ "\n")]
  let action : Str := if !isNewFile then "Update" else "Create"
  let confirm := confirmAction env (action ++ " file " ++ filePath ++ "?")
  let t1 := t ++ shown ++ confirm.1
  if confirm.2 then
    match writeFile env s filePath newContent with
    | (s1, some err) => ⟨some ("failed to write file: " ++ err), s1, t1⟩
    | (s1, none) =>
      ⟨none, s1, t1 ++ [Event.out ("✅ " ++ colorize "File saved:" "green" ++ " " ++ filePath ++ "\n")]⟩
  else ⟨none, s, t1 ++ [Event.out ("❌ " ++ colorize "Operation cancelled" "red" ++ "\n")]⟩

/-- Embedding of `handleWriteMode`. -/
def handleWriteMode (env : Env σ) (s : σ) (query filePath : Str) : Run σ :=
  if filePath = [] then ⟨some "no file path provided for write mode", s, []⟩
  else if query = [] then ⟨some "no instruction provided for write mode", s, []⟩
  else
    let t1 := [Event.out ("✏️  " ++ colorize "Processing file:" "blue" ++ " " ++ filePath ++ "\n")]
    let isNewFile := !fileExists env s filePath
    match (if !isNewFile then readFile env s filePath else .ok []) with
    | .error err => ⟨some ("failed to read existing file: " ++ err), s, t1⟩
    | .ok oldContent =>
      let t2 := t1 ++ [Event.out ("📝 " ++ colorize "Generating content..." "blue" ++ "\n"),
                       Event.ai (AICall.EditFile filePath oldContent query)]
      match EditFile env.Model filePath oldContent query with
      | .error err => ⟨some ("failed to generate file content: " ++ err), s, t2⟩
      | .ok newContent => writeAfterGenerate env s filePath oldContent isNewFile newContent t2

/-- The four prints a handler makes of a result under a heading. -/
def resultBlock (heading body : Str) : List Event :=
  [Event.out ("\n" ++ colorize heading "green" ++ "\n"),
   Event.out (ruleLine ++ "\n"),
   Event.out (body ++ "\n"),
   Event.out (ruleLine ++ "\n")]

/-- Embedding of `handleCodeMode`. -/
def handleCodeMode (env : Env σ) (s : σ) (query : Str) : Run σ :=
  if query = [] then ⟨some "no query provided for code mode", s, []⟩
  else
    let t1 := [Event.out ("💻 " ++ colorize "Generating code..." "blue" ++ "\n"),
               Event.ai (AICall.GenerateCode query)]
    match GenerateCode env.Model query with
    | .error err => ⟨some ("failed to generate code: " ++ err), s, t1⟩
    | .ok code => ⟨none, s, t1 ++ resultBlock "Generated code:" (TrimSpace code)⟩

/-- Embedding of `handleFileQuery`. -/
def handleFileQuery (env : Env σ) (s : σ) (query filePath : Str) : Run σ :=
  if filePath = [] then ⟨some "no file path provided", s, []⟩
  else
    let query : Str := if query = [] then "What does this file do?" else query
    let t1 := [Event.out ("📄 " ++ colorize "Reading file:" "blue" ++ " " ++ filePath ++ "\n")]
    match readFile env s filePath with
    | .error err => ⟨some ("failed to read file: " ++ err), s, t1⟩
    | .ok content =>
      let t2 := t1 ++ [Event.out ("🤔 " ++ colorize "Analyzing file..." "blue" ++ "\n"),
                       Event.ai (AICall.AnalyzeFile content query)]
      match AnalyzeFile env.Model content query with
      | .error err => ⟨some ("failed to analyze file: " ++ err), s, t2⟩
      | .ok response => ⟨none, s, t2 ++ resultBlock "Analysis:" (TrimSpace response)⟩

/-- Embedding of `handleQuery`. -/
def handleQuery (env : Env σ) (s : σ) (query : Str) : Run σ :=
  if query = [] then ⟨some "no query provided", s, []⟩
  else
    let t1 := [Event.out ("🤔 " ++ colorize "Processing query..." "blue" ++ "\n"),
               Event.ai (AICall.GenerateResponse query)]
    match GenerateResponse env.Model query with
    | .error err => ⟨some ("failed to generate response: " ++ err), s, t1⟩
    | .ok response => ⟨none, s, t1 ++ resultBlock "Response:" (TrimSpace response)⟩

/-- Embedding of `handleLastCommand`. -/
def handleLastCommand (env : Env σ) (s : σ) : Run σ :=
  let t1 := [Event.out ("🔍 " ++ colorize "Finding your last command..." "blue" ++ "\n")]
  match getLastCommand env s with
  | .error err => ⟨some ("failed to get last command: " ++ err), s, t1⟩
  | .ok lastCmd =>
    if lastCmd = [] then ⟨some "no recent command found in shell history", s, t1⟩
    else
      let t2 := t1 ++ [Event.out ("📝 " ++ colorize "Last command:" "cyan" ++ " " ++ colorize lastCmd "white" ++ "\n"),
                       Event.out ("🤔 " ++ colorize "Analyzing command..." "blue" ++ "\n"),
                       Event.ai (AICall.AnalyzeCommand lastCmd [])]
      match AnalyzeCommand env.Model lastCmd [] with
      | .error err => ⟨some ("failed to analyze command: " ++ err), s, t2⟩
      | .ok response => ⟨none, s, t2 ++ resultBlock "Analysis:" (TrimSpace response)⟩

/-! ## main.go: the dispatcher -/

/-- The flag variables bound by the argument parser. -/
structure Flags where
  shellMode : Bool
  writeMode : Bool
  codeMode : Bool
  queryString : Str
  filePath : Str
  deriving DecidableEq, Repr

/-- A handler call of `runDefault`, with its arguments. -/
inductive Handler where
  | handleShellMode (query : Str)
  | handleWriteMode (query filePath : Str)
  | handleCodeMode (query : Str)
  | handleFileQuery (query filePath : Str)
  | handleQuery (query : Str)
  | handleLastCommand
  deriving DecidableEq, Repr

/-- Lines 66-80 of `runDefault`: the query and the file path after the
positional arguments and the `@filename` form are taken into account. -/
def resolveArgs (flags : Flags) (args : List Str) : Str × Str :=
  let query := if args.length > 0 then args.getD 0 [] else flags.queryString
  match query with
  | '@' :: rest =>
    (if args.length > 1 then args.getD 1 [] else "What does this file do?", rest)
  | _ => (query, flags.filePath)

/-- Result of the process: exit status, lines on standard error, the handler
calls made in order, the file system and the trace. -/
structure Process (σ : Type) where
  exitCode : Nat
  stderr : List Str
  invoked : List Handler
  fs : σ
  trace : List Event

/-- The `switch` of `runDefault`: the first case that holds calls its handler;
the call made and what the handler returned. -/
def dispatch (env : Env σ) (s : σ) (flags : Flags) (query filePath : Str) : Handler × Run σ :=
  if flags.shellMode then (Handler.handleShellMode query, handleShellMode env s query)
  else if flags.writeMode then
    (Handler.handleWriteMode query filePath, handleWriteMode env s query filePath)
  else if flags.codeMode then (Handler.handleCodeMode query, handleCodeMode env s query)
  else if filePath ≠ [] then
    (Handler.handleFileQuery query filePath, handleFileQuery env s query filePath)
  else if query ≠ [] then (Handler.handleQuery query, handleQuery env s query)
  else (Handler.handleLastCommand, handleLastCommand env s)

/-- Embedding of `runDefault`. A `log.Fatalf` exit writes the time stamp of
the logger, the message and a newline on standard error and exits with 1. -/
def runDefault (env : Env σ) (s : σ) (flags : Flags) (args : List Str) : Process σ :=
  let apiKey := env.Getenv "GEMINI_API_KEY"
  if apiKey = [] then
    ⟨1, ["Error: GEMINI_API_KEY environment variable is not set\n",
         "Please set your Gemini API key: export GEMINI_API_KEY=\"your-api-key\"\n"], [], s, []⟩
  else
    let resolved := resolveArgs flags args
    match env.NewClient apiKey with
    | some err =>
      ⟨1, [env.LogStamp ++ "Failed to initialize AI client: failed to create Gemini client: "
            ++ err ++ "\n"], [], s, []⟩
    | none =>
      match dispatch env s flags resolved.1 resolved.2 with
      | (call, r) =>
        match r.err with
        | some err => ⟨1, [env.LogStamp ++ "Error: " ++ err ++ "\n"], [call], r.fs, r.trace⟩
        | none => ⟨0, [], [call], r.fs, r.trace⟩

/-! ## A small concrete world, for evaluating the handlers -/

/-- An in-memory file system: the content of each path that holds a file. -/
abbrev Files := Str → Option Str

/-- The files after `content` is stored at `path`. -/
def Files.store (fs : Files) (path content : Str) : Files :=
  fun p => if p = path then some content else fs p

/-- A world with an in-memory file system, no directories, a shell that does
nothing, a model that answers every prompt with the one text `answer`, and
`stdin` on standard input. -/
def stubEnv (answer stdin : Str) : Env Files where
  Stat := fun fs p => (fs p).isSome
  ReadFile := fun fs p =>
    match fs p with
    | some c => .ok c
    | none => .error "no such file or directory"
  MkdirAll := fun fs _ => (fs, none)
  WriteFile := fun fs p c => (fs.store p c, none)
  Dir := fun _ => "."
  Join := fun a b => a ++ "/" ++ b
  UserHomeDir := .ok "/home/user"
  Sh := fun fs _ => (fs, [], none)
  Model := fun _ => .ok ⟨[⟨some ⟨[Part.text answer]⟩⟩]⟩
  Stdin := stdin
  LowerTable := id
  Getenv := fun _ => "key"
  NewClient := fun _ => none
  LogStamp := "2024/01/02 03:04:05 "

/-! ## Notions of the specification -/

/-- The name of the API key variable read by `runDefault`. -/
def apiKeyVar : Str := "GEMINI_API_KEY"

/-- The process made the one handler call `call`, and what it did is what
that handler did, with result `r`: the same trace, the same file system
after it, exit status 0 exactly when the handler returned no error, and the
error of the handler as the one line on standard error. -/
def ranOnly (env : Env σ) (p : Process σ) (call : Handler) (r : Run σ) : Prop :=
  p.invoked = [call] ∧ p.trace = r.trace ∧ p.fs = r.fs ∧
  (r.err = none → p.exitCode = 0 ∧ p.stderr = []) ∧
  (∀ err, r.err = some err →
    p.exitCode = 1 ∧ p.stderr = [env.LogStamp ++ "Error: ".toList ++ err ++ "\n".toList])

/-- The default question of the `@filename` form. -/
def defaultQuestion : Str := "What does this file do?"

/-- An answer that confirms: `y` or `yes` once surrounding white space is
trimmed and case is ignored. -/
def answersYes (table : Char → Char) (answer : Str) : Prop :=
  ToLower table (TrimSpace answer) = "y".toList ∨ ToLower table (TrimSpace answer) = "yes".toList

/-- The in-order concatenation of the text parts of a list of parts. -/
def textOfParts (parts : List Part) : Str :=
  (parts.filterMap (fun p => match p with
    | Part.text t => some t
    | Part.nonText _ => none)).flatten

/-- Whether a list of parts holds a text part. -/
def hasTextPart (parts : List Part) : Bool :=
  parts.any (fun p => match p with
    | Part.text _ => true
    | Part.nonText _ => false)

/-- The entry of a history line in the words of the specification: the line
with surrounding white space trimmed and, when that starts with `:` and
contains `;`, reduced to what follows the first `;`. -/
def entryOf (line : Str) : Str :=
  let t := TrimSpace line
  if HasPrefix t ":" && ContainsChar t ';' then (afterFirst ';' t).getD t else t

/-- The last command in the words of the specification: the last entry, in
file order, that is not empty and does not begin with `wdym`; the empty
string when there is none. -/
def specLastCommand (lines : List Str) : Str :=
  (((lines.map entryOf).filter (fun e => e ≠ [] && !HasPrefix e "wdym")).getLast?).getD []

/-- The lines whose entry the history loop of the code keeps: the trimmed line
is not empty and the entry does not begin with `wdym`. -/
def keepsLine (t : Str) : Bool :=
  decide (TrimSpace t ≠ []) && !HasPrefix (entryOf t) "wdym".toList

/-- Number of text lines: the newline-separated lines, a final trailing
newline not counting as one more line. -/
def textLines (s : Str) : Nat :=
  if s.getLast? = some '\n' then (SplitLines s).length - 1 else (SplitLines s).length

/-- The line of `printDiff` that stands for the changes not shown. -/
def moreChangesLine : Event := Event.out "  ... and more changes\n".toList

/-- Whether the new line of index `i` is a changed line: it lies beyond the
old lines, or differs from the old line of the same index. -/
def changedAt (oldLines newLines : List Str) (i : Nat) : Bool :=
  decide (i ≥ oldLines.length) || (oldLines.getD i [] != newLines.getD i [])

/-- The indices of the changed lines among the new lines, in order. -/
def changedLines (oldLines newLines : List Str) : List Nat :=
  (List.range newLines.length).filter (changedAt oldLines newLines)

/-- Number of new lines printed in a trace: the prints that begin with the
marker of an added line. -/
def shownChanges : List Event → Nat
  | [] => 0
  | Event.out text :: es => (if HasPrefix text "  + ".toList then 1 else 0) + shownChanges es
  | _ :: es => shownChanges es

/-- Number of changed lines that the loop of `printDiff` left unprinted. -/
def unprintedChanges (oldContent newContent : Str) : Nat :=
  (changedLines (SplitLines oldContent) (SplitLines newContent)).length
    - shownChanges (diffLoop (SplitLines oldContent) (SplitLines newContent) 5
        (SplitLines newContent).length 0 0)

/-! ## C1: mode dispatch -/

/-- Past the API key check and the client creation, `runDefault` does what
its `switch` selects, and nothing else. -/
lemma runDefault_ranOnly_dispatch (env : Env σ) (s : σ) (flags : Flags) (args : List Str)
    (hkey : env.Getenv apiKeyVar ≠ [])
    (hclient : env.NewClient (env.Getenv apiKeyVar) = none) :
    ranOnly env (runDefault env s flags args)
      (dispatch env s flags (resolveArgs flags args).1 (resolveArgs flags args).2).1
      (dispatch env s flags (resolveArgs flags args).1 (resolveArgs flags args).2).2 := by
  have hkey2 : env.Getenv "GEMINI_API_KEY".toList ≠ [] := hkey
  have hclient2 : env.NewClient (env.Getenv "GEMINI_API_KEY".toList) = none := hclient
  unfold ranOnly
  simp only [runDefault, hkey2, hclient2, if_false]
  rcases dispatch env s flags (resolveArgs flags args).1 (resolveArgs flags args).2
    with ⟨call, r⟩
  simp only
  cases herr : r.err with
  | none => simp
  | some err => simp

/-- C1. When the API key is set and the client is created, `runDefault`
invokes exactly one handler, and what the process does (its trace, the file
system after it, its exit status and error line) is what that handler does
on the resolved query and file path: `handleShellMode` if `shellMode`; else
`handleWriteMode` if `writeMode`; else `handleCodeMode` if `codeMode`; else
`handleFileQuery` if the resolved file path is not empty; else `handleQuery`
if the resolved query is not empty; else `handleLastCommand`. -/
theorem runDefault_invokes_first_match (env : Env σ) (s : σ) (flags : Flags) (args : List Str)
    (hkey : env.Getenv apiKeyVar ≠ [])
    (hclient : env.NewClient (env.Getenv apiKeyVar) = none) :
    (runDefault env s flags args).invoked.length = 1 ∧
    (flags.shellMode = true →
      ranOnly env (runDefault env s flags args)
        (Handler.handleShellMode (resolveArgs flags args).1)
        (handleShellMode env s (resolveArgs flags args).1)) ∧
    (flags.shellMode = false → flags.writeMode = true →
      ranOnly env (runDefault env s flags args)
        (Handler.handleWriteMode (resolveArgs flags args).1 (resolveArgs flags args).2)
        (handleWriteMode env s (resolveArgs flags args).1 (resolveArgs flags args).2)) ∧
    (flags.shellMode = false → flags.writeMode = false → flags.codeMode = true →
      ranOnly env (runDefault env s flags args)
        (Handler.handleCodeMode (resolveArgs flags args).1)
        (handleCodeMode env s (resolveArgs flags args).1)) ∧
    (flags.shellMode = false → flags.writeMode = false → flags.codeMode = false →
      (resolveArgs flags args).2 ≠ [] →
      ranOnly env (runDefault env s flags args)
        (Handler.handleFileQuery (resolveArgs flags args).1 (resolveArgs flags args).2)
        (handleFileQuery env s (resolveArgs flags args).1 (resolveArgs flags args).2)) ∧
    (flags.shellMode = false → flags.writeMode = false → flags.codeMode = false →
      (resolveArgs flags args).2 = [] → (resolveArgs flags args).1 ≠ [] →
      ranOnly env (runDefault env s flags args)
        (Handler.handleQuery (resolveArgs flags args).1)
        (handleQuery env s (resolveArgs flags args).1)) ∧
    (flags.shellMode = false → flags.writeMode = false → flags.codeMode = false →
      (resolveArgs flags args).2 = [] → (resolveArgs flags args).1 = [] →
      ranOnly env (runDefault env s flags args)
        Handler.handleLastCommand (handleLastCommand env s)) := by
  have hran := runDefault_ranOnly_dispatch env s flags args hkey hclient
  refine ⟨by rw [hran.1]; rfl, ?_, ?_, ?_, ?_, ?_, ?_⟩
  · intro h1
    simpa [dispatch, h1] using hran
  · intro h1 h2
    simpa [dispatch, h1, h2] using hran
  · intro h1 h2 h3
    simpa [dispatch, h1, h2, h3] using hran
  · intro h1 h2 h3 h4
    simpa [dispatch, h1, h2, h3, h4] using hran
  · intro h1 h2 h3 h4 h5
    simpa [dispatch, h1, h2, h3, h4, h5] using hran
  · intro h1 h2 h3 h4 h5
    simpa [dispatch, h1, h2, h3, h4, h5] using hran

/-- Witness of C1: with `--write --code` and the arguments `@notes.txt` and
`add a title`, the process does what `handleWriteMode` does on the
instruction `add a title` and the path `notes.txt`. -/
theorem runDefault_invokes_first_match_witness :
    ranOnly (stubEnv "text".toList "n\n".toList)
      (runDefault (stubEnv "text".toList "n\n".toList) (fun _ => none)
        ⟨false, true, true, [], []⟩ ["@notes.txt".toList, "add a title".toList])
      (Handler.handleWriteMode "add a title".toList "notes.txt".toList)
      (handleWriteMode (stubEnv "text".toList "n\n".toList) (fun _ => none)
        "add a title".toList "notes.txt".toList) :=
  (runDefault_invokes_first_match (stubEnv "text".toList "n\n".toList) (fun _ => none)
    ⟨false, true, true, [], []⟩ ["@notes.txt".toList, "add a title".toList]
    (by decide) (by decide)).2.2.1 rfl rfl

/-! ## C2: missing inputs are rejected before any AI call -/

/-- C2. In every world, `handleShellMode`, `handleCodeMode` and `handleQuery`
with an empty query, `handleWriteMode` with an empty file path or an empty
query, and `handleFileQuery` with an empty file path each return an error and
make no call on the AI client. -/
theorem handlers_reject_missing_input (env : Env σ) (s : σ) :
    ((handleShellMode env s []).err ≠ none ∧ aiCalls (handleShellMode env s []).trace = 0) ∧
    ((handleCodeMode env s []).err ≠ none ∧ aiCalls (handleCodeMode env s []).trace = 0) ∧
    ((handleQuery env s []).err ≠ none ∧ aiCalls (handleQuery env s []).trace = 0) ∧
    (∀ query : Str, (handleWriteMode env s query []).err ≠ none ∧
      aiCalls (handleWriteMode env s query []).trace = 0) ∧
    (∀ filePath : Str, (handleWriteMode env s [] filePath).err ≠ none ∧
      aiCalls (handleWriteMode env s [] filePath).trace = 0) ∧
    (∀ query : Str, (handleFileQuery env s query []).err ≠ none ∧
      aiCalls (handleFileQuery env s query []).trace = 0) := by
  refine ⟨?_, ?_, ?_, ?_, ?_, ?_⟩
  · simp [handleShellMode, aiCalls, aiCallList]
  · simp [handleCodeMode, aiCalls, aiCallList]
  · simp [handleQuery, aiCalls, aiCallList]
  · intro query
    simp [handleWriteMode, aiCalls, aiCallList]
  · intro filePath
    by_cases h : filePath = []
    · simp [handleWriteMode, aiCalls, aiCallList, h]
    · simp [handleWriteMode, aiCalls, aiCallList, h]
  · intro query
    simp [handleFileQuery, aiCalls, aiCallList]

/-! ## C3, C4: confirmation and the write of `handleWriteMode` -/

/-- The events of `confirmAction`: the prompt is printed, a line is read. -/
lemma confirmAction_events (env : Env σ) (message : Str) :
    (confirmAction env message).1 = [Event.out (message ++ " (y/N): ".toList), Event.read] := by
  unfold confirmAction promptUser
  cases ReadString env.Stdin <;> rfl

/-- The answer of `confirmAction` is yes exactly when a line was read from
standard input and that line confirms. -/
lemma confirmAction_true_iff (env : Env σ) (message : Str) :
    (confirmAction env message).2 = true ↔
      ∃ line, ReadString env.Stdin = .ok line ∧ answersYes env.LowerTable line := by
  unfold confirmAction promptUser answersYes
  cases h : ReadString env.Stdin with
  | error e => simp
  | ok line => simp

/-- C3. If the line answered on standard input is anything other than `y` or
`yes` (trimmed, case ignored), `handleWriteMode` leaves the file system as it
was, so that the target exists as before and reads as before, and a run in
which the confirmation was asked returns success; the confirmation is asked,
and success returned, whenever path and instruction are given, the existing
content (if any) was read and the AI client returned an output. -/
theorem handleWriteMode_decline_unchanged (env : Env σ) (s : σ) (query filePath : Str)
    (hdecline : ∀ line, ReadString env.Stdin = .ok line → ¬ answersYes env.LowerTable line) :
    (handleWriteMode env s query filePath).fs = s ∧
    fileExists env (handleWriteMode env s query filePath).fs filePath = fileExists env s filePath ∧
    env.ReadFile (handleWriteMode env s query filePath).fs filePath = env.ReadFile s filePath ∧
    (Event.read ∈ (handleWriteMode env s query filePath).trace →
      (handleWriteMode env s query filePath).err = none) ∧
    (∀ oldContent output : Str, filePath ≠ [] → query ≠ [] →
      (if fileExists env s filePath then readFile env s filePath else .ok []) = .ok oldContent →
      EditFile env.Model filePath oldContent query = .ok output →
      Event.read ∈ (handleWriteMode env s query filePath).trace ∧
      (handleWriteMode env s query filePath).err = none) := by
  have hno : ∀ message : Str, (confirmAction env message).2 = false := by
    intro message
    cases hc : (confirmAction env message).2 with
    | false => rfl
    | true =>
      obtain ⟨line, hline, hyes⟩ := (confirmAction_true_iff env message).mp hc
      exact absurd hyes (hdecline line hline)
  have hafter : ∀ (old : Str) (isNew : Bool) (new : Str) (t : List Event),
      (writeAfterGenerate env s filePath old isNew new t).fs = s ∧
      (writeAfterGenerate env s filePath old isNew new t).err = none ∧
      Event.read ∈ (writeAfterGenerate env s filePath old isNew new t).trace := by
    intro old isNew new t
    simp only [writeAfterGenerate, hno, confirmAction_events]
    simp
  have hfs : (handleWriteMode env s query filePath).fs = s := by
    unfold handleWriteMode
    split
    · rfl
    · split
      · rfl
      · dsimp only
        split
        · rfl
        · split
          · rfl
          · exact (hafter _ _ _ _).1
  refine ⟨hfs, by rw [hfs], by rw [hfs], ?_, ?_⟩
  · unfold handleWriteMode
    split
    · intro h; simp at h
    · split
      · intro h; simp at h
      · dsimp only
        split
        · intro h; simp at h
        · split
          · intro h; simp at h
          · intro _; exact (hafter _ _ _ _).2.1
  · intro oldContent output hpath hquery hread hai
    unfold handleWriteMode
    simp only [hpath, hquery, if_false]
    simp only [Bool.not_not]
    rw [hread]
    dsimp only
    rw [hai]
    exact ⟨(hafter _ _ _ _).2.2, (hafter _ _ _ _).2.1⟩

/-- Witness of C3: the file `a.txt` exists, the model proposes a new content
and the user answers `no`. -/
theorem handleWriteMode_decline_unchanged_witness :
    (handleWriteMode (stubEnv "new text".toList "no\n".toList)
        (Files.store (fun _ => none) "a.txt".toList "old text\n".toList)
        "rewrite".toList "a.txt".toList).fs
      = Files.store (fun _ => none) "a.txt".toList "old text\n".toList ∧
    (handleWriteMode (stubEnv "new text".toList "no\n".toList)
        (Files.store (fun _ => none) "a.txt".toList "old text\n".toList)
        "rewrite".toList "a.txt".toList).err = none :=
  have hdecline : ∀ line, ReadString (stubEnv "new text".toList "no\n".toList).Stdin = .ok line →
      ¬ answersYes (stubEnv "new text".toList "no\n".toList).LowerTable line := by
    intro line hline
    have hread : ReadString (stubEnv "new text".toList "no\n".toList).Stdin
        = .ok "no\n".toList := by decide
    rw [hread] at hline
    injection hline with hline
    subst hline
    unfold answersYes
    decide
  have h := handleWriteMode_decline_unchanged (stubEnv "new text".toList "no\n".toList)
    (Files.store (fun _ => none) "a.txt".toList "old text\n".toList)
    "rewrite".toList "a.txt".toList hdecline
  ⟨h.1, (h.2.2.2.2 "old text\n".toList "new text".toList (by decide) (by decide)
    (by decide) (by decide)).2⟩

/-- The AI calls of a trace built from two parts. -/
lemma aiCallList_append (a b : List Event) :
    aiCallList (a ++ b) = aiCallList a ++ aiCallList b := by
  induction a with
  | nil => rfl
  | cons e a ih => cases e <;> simp [aiCallList, ih]

/-- For a new file, the display, the confirmation and the write make no call
on the AI client. -/
lemma writeAfterGenerate_new_aiCallList (env : Env σ) (s : σ) (filePath old new : Str)
    (t : List Event) :
    aiCallList (writeAfterGenerate env s filePath old true new t).trace = aiCallList t := by
  simp only [writeAfterGenerate, confirmAction_events, Bool.not_true, Bool.false_eq_true, if_false]
  cases (confirmAction env ("Create".toList ++ " file ".toList ++ filePath ++ "?".toList)).2 with
  | false =>
    simp only [Bool.false_eq_true, if_false, aiCallList_append]
    split <;> simp [aiCallList]
  | true =>
    simp only [if_true]
    rcases writeFile env s filePath (TrimSpace new) with ⟨s1, _ | e⟩
    · simp only [aiCallList_append]
      split <;> simp [aiCallList]
    · simp only [aiCallList_append]
      split <;> simp [aiCallList]

/-- C4. For a target path that does not exist (path and instruction given),
the one call `handleWriteMode` makes on the AI client is `EditFile` with the
empty string as current content; and when the AI client returns an output,
the user confirms and the handler returns success (the write succeeded), the
file system is the one `os.WriteFile` produced for the target path and the
whole trimmed output, whatever its length, so the target reads back as
exactly the trimmed output in any file system in which a written file reads
back as written. -/
theorem handleWriteMode_new_file_written (env : Env σ) (s : σ) (query filePath : Str)
    (hpath : filePath ≠ []) (hquery : query ≠ [])
    (habsent : fileExists env s filePath = false) :
    aiCallList (handleWriteMode env s query filePath).trace
      = [AICall.EditFile filePath [] query] ∧
    (∀ output line : Str, EditFile env.Model filePath [] query = .ok output →
      ReadString env.Stdin = .ok line → answersYes env.LowerTable line →
      (handleWriteMode env s query filePath).err = none →
      (env.MkdirAll s (env.Dir filePath)).2 = none ∧
      (env.WriteFile (env.MkdirAll s (env.Dir filePath)).1 filePath (TrimSpace output)).2 = none ∧
      (handleWriteMode env s query filePath).fs
        = (env.WriteFile (env.MkdirAll s (env.Dir filePath)).1 filePath (TrimSpace output)).1 ∧
      ((∀ s0 p c, (env.WriteFile s0 p c).2 = none → env.ReadFile (env.WriteFile s0 p c).1 p = .ok c) →
        env.ReadFile (handleWriteMode env s query filePath).fs filePath = .ok (TrimSpace output))) := by
  have hrun : handleWriteMode env s query filePath =
      (match EditFile env.Model filePath [] query with
       | .error err => ⟨some ("failed to generate file content: ".toList ++ err), s,
            [Event.out ("✏️  ".toList ++ colorize "Processing file:".toList "blue".toList
              ++ " ".toList ++ filePath ++ "\n".toList)] ++
            [Event.out ("📝 ".toList ++ colorize "Generating content...".toList "blue".toList
              ++ "\n".toList), Event.ai (AICall.EditFile filePath [] query)]⟩
       | .ok newContent => writeAfterGenerate env s filePath [] true newContent
            ([Event.out ("✏️  ".toList ++ colorize "Processing file:".toList "blue".toList
              ++ " ".toList ++ filePath ++ "\n".toList)] ++
            [Event.out ("📝 ".toList ++ colorize "Generating content...".toList "blue".toList
              ++ "\n".toList), Event.ai (AICall.EditFile filePath [] query)])) := by
    unfold handleWriteMode
    simp only [hpath, hquery, if_false, habsent, Bool.not_false, Bool.not_true]
    rfl
  have hwrite : ∀ new : Str, writeFile env s filePath new =
      (match env.MkdirAll s (env.Dir filePath) with
       | (s1, some err) =>
         (s1, some ("failed to create directory ".toList ++ env.Dir filePath ++ ": ".toList ++ err))
       | (s1, none) =>
         match env.WriteFile s1 filePath new with
         | (s2, some err) =>
           (s2, some ("failed to write file ".toList ++ filePath ++ ": ".toList ++ err))
         | (s2, none) => (s2, none)) := fun _ => rfl
  refine ⟨?_, ?_⟩
  · rw [hrun]
    cases EditFile env.Model filePath [] query with
    | error e => rfl
    | ok out =>
      simp only [writeAfterGenerate_new_aiCallList]
      rfl
  · intro output line hai hline hyes herr
    have hconfirm : ∀ message : Str, (confirmAction env message).2 = true :=
      fun message => (confirmAction_true_iff env message).mpr ⟨line, hline, hyes⟩
    rw [hrun, hai] at herr
    rw [hrun, hai]
    simp only [writeAfterGenerate, hconfirm, if_true, hwrite] at herr ⊢
    rcases hM : env.MkdirAll s (env.Dir filePath) with ⟨s1, _ | e1⟩
    · rw [hM] at herr
      simp only at herr ⊢
      rcases hW : env.WriteFile s1 filePath (TrimSpace output) with ⟨s2, _ | e2⟩
      · rw [hW] at herr
        simp only at herr ⊢
        refine ⟨trivial, trivial, trivial, ?_⟩
        intro hlaw
        have := hlaw s1 filePath (TrimSpace output) (by rw [hW])
        rw [hW] at this
        exact this
      · rw [hW] at herr
        simp at herr
    · rw [hM] at herr
      simp at herr

set_option maxRecDepth 20000

/-- Witness of C4: `big.txt` does not exist, the model returns 600 letters
between white space and the user answers ` Y `. -/
theorem handleWriteMode_new_file_written_witness :
    (stubEnv (' ' :: List.replicate 600 'x' ++ ['\n']) " Y \n".toList).ReadFile
      (handleWriteMode (stubEnv (' ' :: List.replicate 600 'x' ++ ['\n']) " Y \n".toList)
        (fun _ => none) "fill it".toList "big.txt".toList).fs "big.txt".toList
      = .ok (TrimSpace (' ' :: List.replicate 600 'x' ++ ['\n'])) :=
  ((handleWriteMode_new_file_written
      (stubEnv (' ' :: List.replicate 600 'x' ++ ['\n']) " Y \n".toList)
      (fun _ => none) "fill it".toList "big.txt".toList (by decide) (by decide) (by decide)).2
    (' ' :: List.replicate 600 'x' ++ ['\n']) " Y \n".toList rfl (by decide)
    (by unfold answersYes; decide) rfl).2.2.2
    (by
      intro s0 p c _
      simp [stubEnv, Files.store])

/-! ## C5, C6: resolution of the file path and the query -/

/-- C5. When the first positional argument is `@` followed by `p`, then for
all flag values the resolved file path is `p` and the resolved query is the
second positional argument when there is one and the default question
otherwise; so `@notes.txt summarize` resolves, whatever the flags, to the pair
that `--file notes.txt --query summarize` resolves to, and that pair is
(`summarize`, `notes.txt`). -/
theorem resolveArgs_at_form (flags : Flags) (p : Str) :
    resolveArgs flags [('@' :: p)] = (defaultQuestion, p) ∧
    (∀ (second : Str) (rest : List Str),
      resolveArgs flags (('@' :: p) :: second :: rest) = (second, p)) ∧
    resolveArgs flags ["@notes.txt".toList, "summarize".toList]
      = resolveArgs ⟨flags.shellMode, flags.writeMode, flags.codeMode,
          "summarize".toList, "notes.txt".toList⟩ [] ∧
    resolveArgs flags ["@notes.txt".toList, "summarize".toList]
      = ("summarize".toList, "notes.txt".toList) := by
  refine ⟨rfl, fun second rest => by simp [resolveArgs], rfl, rfl⟩

/-- C6 as stated fails: with no positional argument, `--query @x` and
`--file y` resolve to the file path `x` and the default question, not to the
flag values. -/
theorem resolveArgs_flags_only_counterexample :
    resolveArgs ⟨false, false, false, "@x".toList, "y".toList⟩ []
      = ("What does this file do?".toList, "x".toList) ∧
    ¬ (∀ flags : Flags, resolveArgs flags [] = (flags.queryString, flags.filePath)) := by
  refine ⟨rfl, ?_⟩
  intro h
  have h1 := h ⟨false, false, false, "@x".toList, "y".toList⟩
  exact absurd h1 (by decide)

/-- C6, amended. With no positional argument, the resolved file path and
query are the `--file` and `--query` values when the `--query` value does not
begin with `@`; when it is `@` followed by `p`, the resolved file path is `p`
and the resolved query is the default question. -/
theorem resolveArgs_flags_only (flags : Flags) :
    ((∀ p : Str, flags.queryString ≠ '@' :: p) →
      resolveArgs flags [] = (flags.queryString, flags.filePath)) ∧
    (∀ p : Str, flags.queryString = '@' :: p →
      resolveArgs flags [] = (defaultQuestion, p)) := by
  constructor
  · intro h
    unfold resolveArgs
    cases hq : flags.queryString with
    | nil => rfl
    | cons c rest =>
      by_cases hc : c = '@'
      · exact absurd (hc ▸ hq) (h rest)
      · simp only [hq, List.length_nil, gt_iff_lt, lt_self_iff_false, if_false]
        split
        · next r heq =>
          injection heq with h1 h2
          exact absurd h1 hc
        · rfl
  · intro p h
    unfold resolveArgs
    simp only [List.length_nil, gt_iff_lt, lt_self_iff_false, if_false, h]
    rfl

/-- Witness of C6, amended: `--query summarize --file notes.txt`, and
`--query @notes.txt` with `--file other.txt`. -/
theorem resolveArgs_flags_only_witness :
    resolveArgs ⟨false, false, false, "summarize".toList, "notes.txt".toList⟩ []
      = ("summarize".toList, "notes.txt".toList) ∧
    resolveArgs ⟨false, false, false, "@notes.txt".toList, "other.txt".toList⟩ []
      = (defaultQuestion, "notes.txt".toList) :=
  ⟨(resolveArgs_flags_only ⟨false, false, false, "summarize".toList, "notes.txt".toList⟩).1
      (by
        intro p h
        have h2 : ("summarize".toList).head? = some '@' := congrArg List.head? h
        exact absurd h2 (by decide)),
   (resolveArgs_flags_only ⟨false, false, false, "@notes.txt".toList, "other.txt".toList⟩).2
      "notes.txt".toList rfl⟩

/-! ## C7: the last command of a history file -/

/-- One iteration of the history loop in terms of the entry of the line: the
entry is kept when the trimmed line is not empty and the entry does not
begin with `wdym`; the emptiness of the entry itself is not looked at. -/
lemma historyStep_eq (lastLine text : Str) :
    historyStep lastLine text =
      if TrimSpace text ≠ [] ∧ HasPrefix (entryOf text) "wdym".toList = false
      then entryOf text else lastLine := by
  have hentry : entryOf text =
      (if ContainsChar (TrimSpace text) ';' && HasPrefix (TrimSpace text) ":".toList then
        (match SplitN2 (TrimSpace text) ';' with
          | [_, command] => command
          | _ => TrimSpace text)
       else TrimSpace text) := by
    cases h : afterFirst ';' (TrimSpace text) <;>
      simp only [entryOf, SplitN2, h, Bool.and_comm, Option.getD_some, Option.getD_none, ite_self]
  unfold historyStep
  simp only [← hentry]
  by_cases h1 : TrimSpace text = []
  · simp [h1]
  · cases h2 : HasPrefix (entryOf text) "wdym".toList <;> simp [h1, h2]

/-- The history loop returns the entry of the last line whose trimmed text is
not empty and whose entry does not begin with `wdym`. -/
lemma foldl_historyStep (tokens : List Str) (lastLine : Str) :
    tokens.foldl historyStep lastLine =
      (((tokens.filter keepsLine).map entryOf).getLast?).getD lastLine := by
  induction tokens generalizing lastLine with
  | nil => rfl
  | cons t ts ih =>
    rw [List.foldl_cons, ih, historyStep_eq]
    by_cases hkeep : keepsLine t = true
    · have hcond : TrimSpace t ≠ [] ∧ HasPrefix (entryOf t) "wdym".toList = false := by
        simpa [keepsLine] using hkeep
      rw [List.filter_cons_of_pos hkeep, if_pos hcond, List.map_cons, List.getLast?_cons]
      cases (List.map entryOf (List.filter keepsLine ts)).getLast? <;> rfl
    · have hcond : ¬ (TrimSpace t ≠ [] ∧ HasPrefix (entryOf t) "wdym".toList = false) := by
        simpa [keepsLine] using hkeep
      rw [List.filter_cons_of_neg hkeep, if_neg hcond]

/-- Where the code and the specification agree: when the scan ends without
error and no line with a non-empty trimmed text has an empty entry, the code
returns the last command of the specification. -/
lemma scanLastCommand_eq_spec (sc : Scanner) (herr : sc.err = none)
    (hentries : ∀ t ∈ sc.tokens, TrimSpace t ≠ [] → entryOf t ≠ []) :
    scanLastCommand sc = .ok (specLastCommand sc.tokens) := by
  have hempty : ∀ t : Str, TrimSpace t = [] → entryOf t = [] := by
    intro t ht
    simp [entryOf, ht, HasPrefix]
  have hfilter : (sc.tokens.map entryOf).filter (fun e => e ≠ [] && !HasPrefix e "wdym".toList)
      = (sc.tokens.filter keepsLine).map entryOf := by
    rw [List.filter_map]
    congr 1
    apply List.filter_congr
    intro t ht
    by_cases h1 : TrimSpace t = []
    · simp [keepsLine, h1, hempty t h1]
    · simp [keepsLine, h1, hentries t ht h1]
  unfold scanLastCommand specLastCommand
  rw [herr, foldl_historyStep, hfilter]

/-- C7 (defect). The history file with the lines `ls` and `: 1700000000:0;`
is scanned into those two lines; its last non-empty entry that does not begin
with `wdym` is `ls`, which is what the specification says is returned, and
the code returns the empty string: the second line passes the emptiness test
before its command portion is cut out, and the empty command portion then
overwrites `ls`. On the lines `echo hi`, `wdym -s foo`, `ls -la` the code
returns `ls -la`. -/
theorem getLastCommandFromFile_empty_entry :
    scanFile "ls\n: 1700000000:0;\n".toList
      = ⟨["ls".toList, ": 1700000000:0;".toList], none⟩ ∧
    specLastCommand (scanFile "ls\n: 1700000000:0;\n".toList).tokens = "ls".toList ∧
    scanLastCommand (scanFile "ls\n: 1700000000:0;\n".toList) = .ok [] ∧
    getLastCommandFromFile (stubEnv [] [])
      (Files.store (fun _ => none) ".zsh_history".toList "ls\n: 1700000000:0;\n".toList)
      ".zsh_history".toList = .ok [] ∧
    scanLastCommand (scanFile "echo hi\nwdym -s foo\nls -la\n".toList) = .ok "ls -la".toList := by
  refine ⟨by decide, by decide, by decide, by decide, by decide⟩

/-! ## C8: `GenerateResponse` -/

/-- C8 as stated fails: a first candidate whose only part is not text has no
text content, and `GenerateResponse` succeeds on it, returning the empty
string. -/
theorem GenerateResponse_no_text_counterexample :
    hasTextPart [Part.nonText 0] = false ∧
    GenerateResponse (fun _ => .ok ⟨[⟨some ⟨[Part.nonText 0]⟩⟩]⟩) "hi".toList = .ok [] ∧
    ¬ (∀ (model : Str → Except Str Response) (prompt : Str) (parts : List Part)
        (others : List Candidate),
        model prompt = .ok ⟨⟨some ⟨parts⟩⟩ :: others⟩ → hasTextPart parts = false →
        ∃ err, GenerateResponse model prompt = .error err) := by
  refine ⟨rfl, rfl, ?_⟩
  intro h
  obtain ⟨err, herr⟩ := h (fun _ => .ok ⟨[⟨some ⟨[Part.nonText 0]⟩⟩]⟩) [] [Part.nonText 0] []
    rfl rfl
  have hok : GenerateResponse (fun _ => .ok ⟨[⟨some ⟨[Part.nonText 0]⟩⟩]⟩) []
      = (.ok [] : Except Str Str) := rfl
  rw [hok] at herr
  cases herr

/-- The text collected by the loop of `GenerateResponse` is the in-order
concatenation of the text parts. -/
lemma collectText_eq (parts : List Part) : collectText parts = textOfParts parts := by
  induction parts with
  | nil => rfl
  | cons p ps ih =>
    cases p with
    | text t => simp [collectText, textOfParts, ih] at *
    | nonText k => simp [collectText, textOfParts, ih] at *

/-- C8, amended. For a response returned without request error,
`GenerateResponse` fails when the candidate list is empty or when the first
candidate has nil content or a content with no parts, and otherwise succeeds
with the in-order concatenation of the text parts of the first candidate,
whatever its other parts and the other candidates are; that text is empty
when no part is text. -/
theorem GenerateResponse_first_candidate (model : Str → Except Str Response) (prompt : Str)
    (response : Response) (hresponse : model prompt = .ok response) :
    (response.Candidates = [] →
      GenerateResponse model prompt = .error "no response candidates generated".toList) ∧
    (∀ (first : Candidate) (others : List Candidate), response.Candidates = first :: others →
      (first.Content = none →
        GenerateResponse model prompt = .error "empty response from AI".toList) ∧
      (first.Content = some ⟨[]⟩ →
        GenerateResponse model prompt = .error "empty response from AI".toList) ∧
      (∀ parts : List Part, first.Content = some ⟨parts⟩ → parts ≠ [] →
        GenerateResponse model prompt = .ok (textOfParts parts) ∧
        (hasTextPart parts = false → GenerateResponse model prompt = .ok []))) := by
  unfold GenerateResponse
  rw [hresponse]
  refine ⟨?_, ?_⟩
  · intro h
    simp only [extractText, h]
  · intro first others h
    refine ⟨?_, ?_, ?_⟩
    · intro hc
      simp only [extractText, h, hc]
    · intro hc
      simp only [extractText, h, hc, List.length_nil, if_true]
    · intro parts hc hparts
      have hlen : ¬ parts.length = 0 := by
        intro h0
        exact hparts (List.length_eq_zero.mp h0)
      have hres : extractText (.ok response) = .ok (textOfParts parts) := by
        simp only [extractText, h, hc, hlen, if_false, collectText_eq]
      refine ⟨hres, ?_⟩
      intro hno
      rw [hres]
      congr 1
      clear hres hlen hparts hc
      induction parts with
      | nil => rfl
      | cons p ps ih =>
        cases p with
        | text t => simp [hasTextPart] at hno
        | nonText k =>
          have hps : hasTextPart ps = false := by simpa [hasTextPart] using hno
          simpa [textOfParts] using ih hps

/-- Witness of C8, amended: two text parts around a non-text part in the
first candidate, and a second candidate. -/
theorem GenerateResponse_first_candidate_witness :
    GenerateResponse
      (fun _ => .ok ⟨[⟨some ⟨[Part.text "ab".toList, Part.nonText 0, Part.text "cd".toList]⟩⟩,
        ⟨some ⟨[Part.text "zz".toList]⟩⟩]⟩) "hi".toList = .ok "abcd".toList :=
  ((GenerateResponse_first_candidate
      (fun _ => .ok ⟨[⟨some ⟨[Part.text "ab".toList, Part.nonText 0, Part.text "cd".toList]⟩⟩,
        ⟨some ⟨[Part.text "zz".toList]⟩⟩]⟩) "hi".toList _ rfl).2 _ _ rfl).2.2
    [Part.text "ab".toList, Part.nonText 0, Part.text "cd".toList] rfl (by decide) |>.1

/-! ## C9: the change summary for an existing file -/

/-- C9 (defect). The file `notes.txt` holds the one line `a` followed by a
newline, and the AI output has the four lines `a`, `b`, `c`, `d`: the new
content has 3 more text lines than the current content, and the summary
`handleWriteMode` displays is `2 additions`, not `3 additions`. The count is
of the segments of `strings.Split`, which has one more segment than the
file has lines when the file ends with a newline, while the new content is
trimmed and never does. -/
theorem handleWriteMode_additions_off_by_one :
    textLines "a\n".toList = 1 ∧
    textLines (TrimSpace "a\nb\nc\nd".toList) = 4 ∧
    Event.out "  2 additions (+)".toList ∈
      (handleWriteMode (stubEnv "a\nb\nc\nd".toList "n\n".toList)
        (Files.store (fun _ => none) "notes.txt".toList "a\n".toList)
        "add three lines".toList "notes.txt".toList).trace ∧
    Event.out "  3 additions (+)".toList ∉
      (handleWriteMode (stubEnv "a\nb\nc\nd".toList "n\n".toList)
        (Files.store (fun _ => none) "notes.txt".toList "a\n".toList)
        "add three lines".toList "notes.txt".toList).trace ∧
    changeSummary (((SplitLines (TrimSpace "a\nb\nc\nd".toList)).length : Int)
        - ((SplitLines "a\n".toList).length : Int))
      = [Event.out "  2 additions (+)".toList] := by
  refine ⟨by decide, by decide, by decide, by decide, by decide⟩

/-! ## C10: `colorize` -/

/-- A key that is not among the keys of a map literal is not found in it. -/
lemma mapLookup_eq_none (m : List (Str × Str)) (key : Str) (h : key ∉ m.map Prod.fst) :
    mapLookup m key = none := by
  induction m with
  | nil => rfl
  | cons kv m ih =>
    have hne : ¬ kv.1 = key := by
      intro heq
      exact h (by simp [heq])
    have hrest : key ∉ m.map Prod.fst := by
      intro hmem
      exact h (by simp [hmem])
    have := ih hrest
    simp only [mapLookup, Option.map_eq_none', List.find?_cons] at this ⊢
    have hb : (kv.1 == key) = false := by simpa using hne
    rw [hb]
    exact this

/-- C10. For each of the colour names red, green, yellow, blue, magenta,
cyan and white, `colorize` returns the ANSI code of the colour, the text and
the reset code `\033[0m` (green is `\033[32m`); for a name that is not a key
of the table of `colorize`, it returns the text as it is. -/
theorem colorize_table (text : Str) :
    colorize text "red".toList = "\x1b[31m".toList ++ text ++ "\x1b[0m".toList ∧
    colorize text "green".toList = "\x1b[32m".toList ++ text ++ "\x1b[0m".toList ∧
    colorize text "yellow".toList = "\x1b[33m".toList ++ text ++ "\x1b[0m".toList ∧
    colorize text "blue".toList = "\x1b[34m".toList ++ text ++ "\x1b[0m".toList ∧
    colorize text "magenta".toList = "\x1b[35m".toList ++ text ++ "\x1b[0m".toList ∧
    colorize text "cyan".toList = "\x1b[36m".toList ++ text ++ "\x1b[0m".toList ∧
    colorize text "white".toList = "\x1b[37m".toList ++ text ++ "\x1b[0m".toList ∧
    (∀ name : Str, name ∉ colors.map Prod.fst → colorize text name = text) := by
  refine ⟨rfl, rfl, rfl, rfl, rfl, rfl, rfl, ?_⟩
  intro name hname
  unfold colorize
  rw [mapLookup_eq_none colors name hname]

/-- Witness of C10: `unknown` is not a key of the table, and the text comes
back as it is. -/
theorem colorize_table_witness :
    colorize "text".toList "green".toList = "\x1b[32mtext\x1b[0m".toList ∧
    colorize "text".toList "unknown".toList = "text".toList :=
  ⟨(colorize_table "text".toList).2.1,
   (colorize_table "text".toList).2.2.2.2.2.2.2 "unknown".toList (by decide)⟩

/-! ## C11: the line for the changes not shown -/

/-- The prints of the key-changes loop are lines of the old and the new
content, never the line for the changes not shown. -/
lemma moreChangesLine_not_mem_diffLoop (oldLines newLines : List Str) (fuel i shown : Nat) :
    moreChangesLine ∉ diffLoop oldLines newLines 5 fuel i shown := by
  have hplus : ∀ x : Str, moreChangesLine ≠ Event.out ("  + ".toList ++ x ++ "\n".toList) := by
    intro x h
    simp [moreChangesLine] at h
  have hminus : ∀ x : Str, moreChangesLine ≠ Event.out ("  - ".toList ++ x ++ "\n".toList) := by
    intro x h
    simp [moreChangesLine] at h
  induction fuel generalizing i shown with
  | zero => simp [diffLoop]
  | succ fuel ih =>
    unfold diffLoop
    split
    · split
      · simp only [List.mem_cons, not_or]
        exact ⟨hplus _, ih _ _⟩
      · split
        · split
          · simp only [List.singleton_append, List.mem_cons, not_or]
            exact ⟨hminus _, hplus _, ih _ _⟩
          · simp only [List.nil_append, List.mem_cons, not_or]
            exact ⟨hplus _, ih _ _⟩
        · exact ih _ _
    · simp

/-- The change summary is not the line for the changes not shown. -/
lemma moreChangesLine_not_mem_changeSummary (additions : Int) :
    moreChangesLine ∉ changeSummary additions := by
  have hlast : ∀ (a b : Str), b ≠ [] → b.getLast? ≠ some '\n' →
      Event.out ("  ".toList ++ a ++ b) ≠ moreChangesLine := by
    intro a b hb hlast heq
    unfold moreChangesLine at heq
    injection heq with heq
    have h2 := congrArg List.getLast? heq
    rw [List.getLast?_append_of_ne_nil _ hb] at h2
    exact hlast (h2.trans (by decide))
  unfold changeSummary
  simp only [List.mem_append, not_or]
  refine ⟨⟨?_, ?_⟩, ?_⟩
  · split
    · simp only [List.mem_singleton]
      exact fun h => hlast _ _ (by decide) (by decide) h.symm
    · simp
  · split
    · simp only [List.mem_singleton]
      exact fun h => hlast _ _ (by decide) (by decide) h.symm
    · simp
  · split
    · simp only [List.mem_singleton]
      exact fun h => absurd h (by decide)
    · simp

/-- The loop shows the changed lines in order until 5 are shown: from index
`i` with `shown` lines shown, it prints as many new lines as there are changed
lines left, up to the `5 - shown` that the cap allows. -/
lemma shownChanges_diffLoop (oldLines newLines : List Str) (n i shown : Nat)
    (hlen : i + n = newLines.length) (hshown : shown ≤ 5) :
    shownChanges (diffLoop oldLines newLines 5 n i shown)
      = min (5 - shown) ((List.range' i n).filter (changedAt oldLines newLines)).length := by
  have hplus : ∀ (x : Str) (es : List Event),
      shownChanges (Event.out ("  + ".toList ++ x ++ "\n".toList) :: es) = 1 + shownChanges es := by
    intro x es
    simp [shownChanges, HasPrefix]
  have hminus : ∀ (x : Str) (es : List Event),
      shownChanges (Event.out ("  - ".toList ++ x ++ "\n".toList) :: es) = shownChanges es := by
    intro x es
    simp [shownChanges, HasPrefix]
  induction n generalizing i shown with
  | zero => simp [diffLoop, shownChanges]
  | succ n ih =>
    have hi : i < newLines.length := by omega
    unfold diffLoop
    rw [List.range'_succ]
    by_cases hcap : shown < 5
    · rw [if_pos ⟨hi, hcap⟩]
      have ih1 := ih (i + 1) (shown + 1) (by omega) (by omega)
      have ih0 := ih (i + 1) shown (by omega) hshown
      by_cases hbeyond : i ≥ oldLines.length
      · have hch : changedAt oldLines newLines i = true := by simp [changedAt, hbeyond]
        rw [if_pos hbeyond, List.filter_cons_of_pos hch, hplus, ih1, List.length_cons]
        omega
      · rw [if_neg hbeyond]
        by_cases hne : oldLines.getD i [] ≠ newLines.getD i []
        · have hch : changedAt oldLines newLines i = true := by
            simp only [changedAt, Bool.or_eq_true, decide_eq_true_eq, bne_iff_ne]
            exact Or.inr hne
          rw [if_pos hne, List.filter_cons_of_pos hch, List.length_cons]
          split
          · rw [List.singleton_append, hminus, hplus, ih1]
            omega
          · rw [List.nil_append, hplus, ih1]
            omega
        · have hch : ¬ changedAt oldLines newLines i = true := by
            simp only [changedAt, Bool.or_eq_true, decide_eq_true_eq, bne_iff_ne, not_or]
            exact ⟨hbeyond, hne⟩
          rw [if_neg hne, List.filter_cons_of_neg hch, ih0]
    · have h5 : shown = 5 := by omega
      rw [if_neg (fun h => hcap h.2)]
      simp [shownChanges, h5]

/-- C11 as stated fails: the old content has the six lines `1` to `6` and the
new content differs from it in the sixth line only; the one changed line is
printed, no changed line is left unprinted, and the line for the changes not
shown is printed all the same. -/
theorem printDiff_more_changes_counterexample :
    "1\n2\n3\n4\n5\n6".toList ≠ "1\n2\n3\n4\n5\nX".toList ∧
    changedLines (SplitLines "1\n2\n3\n4\n5\n6".toList) (SplitLines "1\n2\n3\n4\n5\nX".toList) = [5] ∧
    diffLoop (SplitLines "1\n2\n3\n4\n5\n6".toList) (SplitLines "1\n2\n3\n4\n5\nX".toList) 5 6 0 0
      = [Event.out "  - 6\n".toList, Event.out "  + X\n".toList] ∧
    unprintedChanges "1\n2\n3\n4\n5\n6".toList "1\n2\n3\n4\n5\nX".toList = 0 ∧
    moreChangesLine ∈ printDiff "notes.txt".toList "1\n2\n3\n4\n5\n6".toList "1\n2\n3\n4\n5\nX".toList ∧
    ¬ (moreChangesLine ∈
        printDiff "notes.txt".toList "1\n2\n3\n4\n5\n6".toList "1\n2\n3\n4\n5\nX".toList ↔
      unprintedChanges "1\n2\n3\n4\n5\n6".toList "1\n2\n3\n4\n5\nX".toList > 0) := by
  refine ⟨by decide, by decide, by decide, by decide, by decide, by decide⟩

/-- C11, amended. For differing old and new contents, `printDiff` prints the
line for the changes not shown exactly when the new content or the old
content has more than 5 lines (segments between newlines). The loop shows the
first 5 changed lines, so the changed lines left unprinted are those after
the fifth, and whenever there is one the line is printed; the line is also
printed when none is left unprinted and one of the contents has more than 5
lines. -/
theorem printDiff_more_changes (filePath oldContent newContent : Str)
    (hdiff : oldContent ≠ newContent) :
    (moreChangesLine ∈ printDiff filePath oldContent newContent ↔
      (SplitLines newContent).length > 5 ∨ (SplitLines oldContent).length > 5) ∧
    unprintedChanges oldContent newContent
      = (changedLines (SplitLines oldContent) (SplitLines newContent)).length - 5 ∧
    (unprintedChanges oldContent newContent > 0 →
      moreChangesLine ∈ printDiff filePath oldContent newContent) := by
  have h1 : moreChangesLine ≠
      Event.out ("\n📝 Changes for ".toList ++ filePath ++ ":\n".toList) := by
    intro h
    simp [moreChangesLine] at h
  have h2 : moreChangesLine ≠ Event.out (ruleLine ++ "\n".toList) := by decide
  have h3 : moreChangesLine ≠ Event.out "\n".toList := by decide
  have h4 : moreChangesLine ≠ Event.out "\nKey changes:\n".toList := by decide
  have hmem : moreChangesLine ∈ printDiff filePath oldContent newContent ↔
      (SplitLines newContent).length > 5 ∨ (SplitLines oldContent).length > 5 := by
    unfold printDiff
    simp only [if_pos hdiff, List.mem_append, List.mem_cons, List.mem_singleton,
      List.not_mem_nil, h1, h2, h3, h4, moreChangesLine_not_mem_changeSummary,
      moreChangesLine_not_mem_diffLoop, false_or, or_false]
    split
    · next hc => simpa [moreChangesLine] using hc
    · next hc => simpa using hc
  have hshown : shownChanges (diffLoop (SplitLines oldContent) (SplitLines newContent) 5
      (SplitLines newContent).length 0 0)
      = min 5 (changedLines (SplitLines oldContent) (SplitLines newContent)).length := by
    rw [shownChanges_diffLoop _ _ _ 0 0 (by omega) (by omega), changedLines, List.range_eq_range']
  have hunprinted : unprintedChanges oldContent newContent
      = (changedLines (SplitLines oldContent) (SplitLines newContent)).length - 5 := by
    unfold unprintedChanges
    rw [hshown]
    omega
  refine ⟨hmem, hunprinted, ?_⟩
  intro hpos
  rw [hmem]
  left
  have hle : (changedLines (SplitLines oldContent) (SplitLines newContent)).length
      ≤ (SplitLines newContent).length := by
    unfold changedLines
    calc ((List.range (SplitLines newContent).length).filter _).length
        ≤ (List.range (SplitLines newContent).length).length := List.length_filter_le _ _
      _ = (SplitLines newContent).length := List.length_range _
  omega

/-- Witness of C11, amended: seven lines are added to a one-line file; five
are shown, two are left unprinted and the line is printed. -/
theorem printDiff_more_changes_witness :
    unprintedChanges "a".toList "a\n1\n2\n3\n4\n5\n6\n7".toList = 2 ∧
    moreChangesLine ∈ printDiff "notes.txt".toList "a".toList "a\n1\n2\n3\n4\n5\n6\n7".toList :=
  have h := printDiff_more_changes "notes.txt".toList "a".toList "a\n1\n2\n3\n4\n5\n6\n7".toList
    (by decide)
  ⟨h.2.1.trans (by decide), h.2.2 (by decide)⟩

end Wdym
